import Mathlib

/-!
Verification of the `alienbio` repository against its specification.

The repository ships a single source file, `src/rust/src/lib.rs`: a pyo3
native-extension shell whose module initializer `alienbio_sim` adds the
attribute `__version__ = "0.1.0"` to the Python module and does nothing else.
We embed that initializer shallowly (a Python module as its attribute list,
the fallible `add` operation as an environment-indexed function).

The specification additionally defines the simulation engine that the module
is intended to eventually contain.  No such engine exists under `src/`, so the
engine definitions below are modelled from the specification's words (each is
marked `Modelled from the spec:`), and the spec's testable properties are
settled against that model.  Fractional quantities (the spec's "floats", and
its gene values "fixed-point in [0,1]") are modelled as fixed-point integers
at scale `fpScale`: the real interval `[0,1]` is the integer interval
`[0, fpScale]`.
-/

/-! ## Part 1: the shipped source, `src/rust/src/lib.rs` -/

/-- A Python module, shallowly embedded as its ordered list of attributes
(name, value pairs; all values occurring in this repository are strings). -/
structure PyModule where
  attrs : List (String × String)
  deriving DecidableEq

/-- A Python error, carrying the name of the attribute whose addition failed. -/
structure PyErr where
  attrName : String
  deriving DecidableEq

/-- The Python runtime environment: decides whether a given attribute
addition succeeds (pyo3's `PyModule::add` returns `PyResult<()>`). -/
structure PyEnv where
  addOk : String → String → Bool

/-- pyo3's `m.add(name, value)`: on success the attribute is bound on the
module (replacing any previous binding of the same name, as Python `setattr`
does); on failure an error is returned and the module is unchanged. -/
def pyAdd (env : PyEnv) (m : PyModule) (name val : String) :
    Except PyErr PyModule :=
  if env.addOk name val then
    .ok ⟨(m.attrs.filter (fun p => p.1 != name)) ++ [(name, val)]⟩
  else
    .error ⟨name⟩

/-- The module initializer `alienbio_sim` from `src/rust/src/lib.rs`:

    fn alienbio_sim(_py: Python, m: &PyModule) -> PyResult<()> {
        m.add("__version__", "0.1.0")?;
        Ok(())
    }

The `?` operator propagates a failure of `add` unchanged; otherwise the
function returns `Ok(())` with the updated module. -/
def alienbio_sim (env : PyEnv) (m : PyModule) : Except PyErr PyModule :=
  match pyAdd env m "__version__" "0.1.0" with
  | .ok m1 => .ok m1
  | .error e => .error e

/-! ## Part 2: the engine defined by the specification

None of the following exists under `src/`; every definition is modelled from
the specification (sections 3, 4, 6, 7 of `spec.md`). -/

/-- The fixed-point scale: the integer `fpScale` represents the real number
`1`, so the spec's interval `[0,1]` is the integer interval `[0, fpScale]`. -/
def fpScale : ℤ := 1000000

/-- Modelled from the spec: a gene is a bounded numeric value (fixed-point in
`[0,1]`, i.e. an integer in `[0, fpScale]`) together with a stable trait
identifier. -/
structure Gene where
  traitId : Nat
  value : ℤ
  deriving DecidableEq

/-- Modelled from the spec: an organism — unique identifier, genome, current
energy, age in ticks, grid position, alive/dead status. -/
structure Organism where
  id : Nat
  genome : List Gene
  energy : ℤ
  age : Nat
  x : Nat
  y : Nat
  alive : Bool
  deriving DecidableEq

/-- Modelled from the spec: an environment cell — position and resource
quantity (non-negative, regenerating per tick up to a cap). -/
structure Cell where
  x : Nat
  y : Nat
  resource : ℤ
  deriving DecidableEq

/-- Modelled from the spec: the configuration accepted by `create_world`
(section 6 of the spec enumerates exactly these fields; the fields the spec
types as floats are fixed-point integers here, with `[0,1]` represented as
`[0, fpScale]`). -/
structure Config where
  width : Nat
  height : Nat
  initial_population : Nat
  max_population : Nat
  mutation_rate : ℤ
  crossover_bias : ℤ
  resource_regen_rate : ℤ
  resource_cap : ℤ
  metabolism_cost : ℤ
  reproduction_threshold : ℤ
  reproduction_cost : ℤ
  max_age : Nat
  seed : Nat
  deriving DecidableEq

/-- Modelled from the spec: the World aggregate root — cell grid, organism
set, tick counter, and the configuration (which carries the deterministic
RNG seed). -/
structure World where
  config : Config
  tick : Nat
  nextId : Nat
  organisms : List Organism
  cells : List Cell
  deriving DecidableEq

/-- Modelled from the spec: a configuration error naming the specific
offending field. -/
structure ConfigError where
  field : String
  deriving DecidableEq

/-- Modelled from the spec: a snapshot format error (malformed or
version-mismatched snapshot on load). -/
structure FormatError where
  msg : String
  deriving DecidableEq

/-- Modelled from the spec: validation of all configuration fields, reporting
the first offending field; `none` means the configuration is valid. -/
def validateConfig (cfg : Config) : Option String :=
  if cfg.width = 0 then some "width"
  else if cfg.height = 0 then some "height"
  else if cfg.max_population = 0 then some "max_population"
  else if cfg.max_population < cfg.initial_population then some "initial_population"
  else if cfg.mutation_rate < 0 ∨ fpScale < cfg.mutation_rate then some "mutation_rate"
  else if cfg.crossover_bias < 0 ∨ fpScale < cfg.crossover_bias then some "crossover_bias"
  else if cfg.resource_regen_rate < 0 then some "resource_regen_rate"
  else if cfg.resource_cap < 0 then some "resource_cap"
  else if cfg.metabolism_cost < 0 then some "metabolism_cost"
  else if cfg.reproduction_threshold < 0 then some "reproduction_threshold"
  else if cfg.reproduction_cost < 0 then some "reproduction_cost"
  else if cfg.max_age = 0 then some "max_age"
  else none

/-- Modelled from the spec: the per-field validity conditions, keyed by the
field name reported in a `ConfigError`. -/
def offends (cfg : Config) : String → Bool
  | "width" => cfg.width == 0
  | "height" => cfg.height == 0
  | "max_population" => cfg.max_population == 0
  | "initial_population" => decide (cfg.max_population < cfg.initial_population)
  | "mutation_rate" => decide (cfg.mutation_rate < 0 ∨ fpScale < cfg.mutation_rate)
  | "crossover_bias" => decide (cfg.crossover_bias < 0 ∨ fpScale < cfg.crossover_bias)
  | "resource_regen_rate" => decide (cfg.resource_regen_rate < 0)
  | "resource_cap" => decide (cfg.resource_cap < 0)
  | "metabolism_cost" => decide (cfg.metabolism_cost < 0)
  | "reproduction_threshold" => decide (cfg.reproduction_threshold < 0)
  | "reproduction_cost" => decide (cfg.reproduction_cost < 0)
  | "max_age" => cfg.max_age == 0
  | _ => false

/-- Modelled from the spec: the deterministic random stream, keyed (rather
than threaded) so that "parallel execution order never changes simulation
outcome" — a 64-bit mixing function on explicit keys. -/
def mix (a b : Nat) : Nat :=
  (6364136223846793005 * a + 1442695040888963407 + 2654435761 * b) % 2 ^ 64

/-- Modelled from the spec: clamping a gene value to its declared range
(`[0,1]` as `[0, fpScale]`). -/
def clampGene (v : ℤ) : ℤ := min (max v 0) fpScale

/-- Modelled from the spec: per-gene uniform parent choice in crossover,
biased by the configured `crossover_bias`. -/
def chooseA (cfg : Config) (key i : Nat) : Bool :=
  decide (((mix key (2 * i) % 1000000 : Nat) : ℤ) < cfg.crossover_bias)

/-- Modelled from the spec: `crossover(parentA, parentB, rng)` combines two
genomes gene-by-gene (uniform biased choice per gene); trait identifiers are
taken from the (shared) species template. -/
def crossoverFrom (cfg : Config) (key : Nat) : Nat → List Gene → List Gene → List Gene
  | _, [], _ => []
  | _, _ :: _, [] => []
  | i, a :: as, b :: bs =>
    ⟨a.traitId, if chooseA cfg key i then a.value else b.value⟩ ::
      crossoverFrom cfg key (i + 1) as bs

/-- Modelled from the spec: the perturbation applied to a gene that mutates,
drawn from the keyed random stream (a fixed-point value in `[-100, 100]`). -/
def mutDelta (key i : Nat) : ℤ :=
  ((mix key (2 * i + 1) % 201 : Nat) : ℤ) - 100

/-- Modelled from the spec: a single gene's mutation step — perturbed with
probability `mutation_rate`, the result clamped to the gene's valid range;
the trait identifier is never changed. -/
def mutateGene (cfg : Config) (key i : Nat) (g : Gene) : Gene :=
  if ((mix key (2 * i) % 1000000 : Nat) : ℤ) < cfg.mutation_rate then
    ⟨g.traitId, clampGene (g.value + mutDelta key i)⟩
  else g

/-- Modelled from the spec: `mutate(genome, rate, rng)` perturbs each gene
independently with probability `rate`, clamping results to the valid range;
gene count and trait identifiers are unchanged. -/
def mutateFrom (cfg : Config) (key : Nat) : Nat → List Gene → List Gene
  | _, [] => []
  | i, g :: gs => mutateGene cfg key i g :: mutateFrom cfg key (i + 1) gs

/-- Modelled from the spec: the initial (species-template) genome shared by
founding organisms — three traits with mid-range values; trait 0 is the
consumption trait consulted by the feeding phase. -/
def initialGenome : List Gene := [⟨0, 500000⟩, ⟨1, 500000⟩, ⟨2, 500000⟩]

/-- Modelled from the spec: a founding organism — identifiers are assigned
densely from 0, positions fill the grid row-major, energy starts at the
reproduction threshold, age 0, alive. -/
def initOrganism (cfg : Config) (i : Nat) : Organism :=
  { id := i, genome := initialGenome, energy := cfg.reproduction_threshold,
    age := 0, x := i % cfg.width, y := i / cfg.width % cfg.height, alive := true }

/-- Modelled from the spec: the initial cell grid — one cell per position,
each starting at the resource cap. -/
def initCells (cfg : Config) : List Cell :=
  (List.range (cfg.width * cfg.height)).map
    (fun i => ⟨i % cfg.width, i / cfg.width, cfg.resource_cap⟩)

/-- Modelled from the spec: the World constructed from a valid
configuration. -/
def initWorld (cfg : Config) : World :=
  { config := cfg, tick := 0, nextId := cfg.initial_population,
    organisms := (List.range cfg.initial_population).map (initOrganism cfg),
    cells := initCells cfg }

/-- Modelled from the spec: `create_world(config) -> World | ConfigError` —
validation happens before any World is created; an invalid configuration is
rejected with the offending field and no (even partial) World exists. -/
def createWorld (cfg : Config) : Except ConfigError World :=
  match validateConfig cfg with
  | some f => .error ⟨f⟩
  | none => .ok (initWorld cfg)

/-- Modelled from the spec: per-tick resource regeneration — each cell's
resource increases by the configured rate up to its capacity. -/
def regenCell (cfg : Config) (c : Cell) : Cell :=
  { c with resource := min (c.resource + cfg.resource_regen_rate) cfg.resource_cap }

/-- Modelled from the spec: the cell at a given grid position, if any. -/
def cellAt (cells : List Cell) (x y : Nat) : Option Cell :=
  cells.find? (fun c => c.x == x && c.y == y)

/-- Modelled from the spec: the resource visible at a position (0 off-grid). -/
def resourceAt (cells : List Cell) (p : Nat × Nat) : ℤ :=
  ((cellAt cells p.1 p.2).map Cell.resource).getD 0

/-- Modelled from the spec: the candidate move targets — the current cell and
its in-bounds von Neumann neighbours. -/
def neighborPositions (cfg : Config) (x y : Nat) : List (Nat × Nat) :=
  (x, y) ::
    ((if x + 1 < cfg.width then [(x + 1, y)] else []) ++
     (if 0 < x then [(x - 1, y)] else []) ++
     (if y + 1 < cfg.height then [(x, y + 1)] else []) ++
     (if 0 < y then [(x, y - 1)] else []))

/-- Modelled from the spec: the deterministic movement preference — strictly
higher resource wins, ties broken by lowest coordinate (row, then column). -/
def betterTarget (cells : List Cell) (p q : Nat × Nat) : Bool :=
  decide (resourceAt cells p < resourceAt cells q) ||
    (decide (resourceAt cells q = resourceAt cells p) &&
      (decide (q.2 < p.2) || (decide (q.2 = p.2) && decide (q.1 < p.1))))

/-- Modelled from the spec: fold selecting the preferred move target among
the candidates. -/
def chooseMove (cells : List Cell) : List (Nat × Nat) → Nat × Nat → Nat × Nat
  | [], best => best
  | p :: ps, best => chooseMove cells ps (if betterTarget cells best p then p else best)

/-- Modelled from the spec: the consumption trait value of an organism
(trait 0, the genome's first gene; 0 for an empty genome). -/
def consumptionOf (o : Organism) : ℤ :=
  ((o.genome.head?).map Gene.value).getD 0

/-- Modelled from the spec: whether the organism's cell holds at least its
consumption trait value of resource. -/
def canFeed (cells : List Cell) (o : Organism) : Bool :=
  match cellAt cells o.x o.y with
  | some c => decide (consumptionOf o ≤ c.resource)
  | none => false

/-- Modelled from the spec: decrement a fed-upon cell's resource by the
consumed amount (guarded so resource cannot go negative). -/
def eatCell (x y : Nat) (amt : ℤ) (c : Cell) : Cell :=
  if c.x = x ∧ c.y = y ∧ amt ≤ c.resource then
    { c with resource := c.resource - amt }
  else c

/-- Modelled from the spec: the age-limit phase — an organism whose age
exceeds the configured maximum dies regardless of energy. -/
def ageCheck (cfg : Config) (o : Organism) : Organism :=
  if cfg.max_age < o.age then { o with alive := false } else o

/-- Modelled from the spec: a child organism spawned at reproduction —
genome via `crossover` (self-crossover policy) followed by `mutate` with the
random stream keyed by child identifier and tick; placed adjacent to the
parent; enters `Alive` for the next tick with the transferred energy. -/
def makeChild (cfg : Config) (tk : Nat) (childId : Nat) (parent : Organism) : Organism :=
  let key := mix (mix cfg.seed childId) tk
  { id := childId,
    genome := mutateFrom cfg key 0 (crossoverFrom cfg key 0 parent.genome parent.genome),
    energy := cfg.reproduction_cost,
    age := 0,
    x := if parent.x + 1 < cfg.width then parent.x + 1 else parent.x,
    y := parent.y,
    alive := true }

/-- Modelled from the spec: the mutable state threaded through one tick's
per-organism phases — processed organisms (dead ones still present, purged at
end of tick), newborns (acting only next tick), the cells, the next fresh
identifier, and the tick's population baseline for the reproduction cap. -/
structure TickState where
  base : Nat
  orgs : List Organism
  newborns : List Organism
  cells : List Cell
  nextId : Nat
  deriving DecidableEq

/-- Modelled from the spec: one organism's phases, in the fixed deterministic
order — metabolism, starvation check, sensing/movement, feeding,
reproduction (refused once the population cap is hit), age limit. -/
def processOrganism (cfg : Config) (tk : Nat) (st : TickState) (o : Organism) :
    TickState :=
  let o1 : Organism := { o with energy := o.energy - cfg.metabolism_cost, age := o.age + 1 }
  if o1.energy ≤ 0 then
    { st with orgs := st.orgs ++ [{ o1 with alive := false }] }
  else
    let tgt := chooseMove st.cells (neighborPositions cfg o1.x o1.y) (o1.x, o1.y)
    let o2 : Organism := { o1 with x := tgt.1, y := tgt.2 }
    let amt := consumptionOf o2
    let fed := canFeed st.cells o2
    let o3 : Organism := if fed then { o2 with energy := o2.energy + amt } else o2
    let cells2 := if fed then st.cells.map (eatCell o2.x o2.y amt) else st.cells
    if cfg.reproduction_threshold ≤ o3.energy ∧
        st.base + st.newborns.length < cfg.max_population then
      { base := st.base,
        orgs := st.orgs ++ [ageCheck cfg { o3 with energy := max (o3.energy - cfg.reproduction_cost) 0 }],
        newborns := st.newborns ++ [makeChild cfg tk st.nextId o3],
        cells := cells2,
        nextId := st.nextId + 1 }
    else
      { base := st.base,
        orgs := st.orgs ++ [ageCheck cfg o3],
        newborns := st.newborns,
        cells := cells2,
        nextId := st.nextId }

/-- Modelled from the spec: one full tick — global resource regeneration,
then every organism's phases in identifier order, then the end-of-tick purge
of dead organisms and the admission of newborns; the tick counter advances
by one. -/
def tickOnce (w : World) : World :=
  let cfg := w.config
  let cells1 := w.cells.map (regenCell cfg)
  let st0 : TickState := ⟨w.organisms.length, [], [], cells1, w.nextId⟩
  let stF := w.organisms.foldl (processOrganism cfg w.tick) st0
  { config := cfg, tick := w.tick + 1, nextId := stF.nextId,
    organisms := stF.orgs.filter (fun o => o.alive) ++ stF.newborns,
    cells := stF.cells }

/-- Modelled from the spec: `step(ticks)` runs the full phase sequence
`ticks` times; it is the sole mutator of World state. -/
def stepWorld (n : Nat) (w : World) : World := tickOnce^[n] w

/-- Modelled from the spec: the per-organism slice of a snapshot —
identifier, position, age, energy of a living organism. -/
structure OrgSummary where
  id : Nat
  x : Nat
  y : Nat
  age : Nat
  energy : ℤ
  deriving DecidableEq

/-- Modelled from the spec: a snapshot — read-only point-in-time copy of the
tick counter, all living organisms' summaries, and the aggregate cell
resource total. -/
structure Snapshot where
  tick : Nat
  orgs : List OrgSummary
  resourceTotal : ℤ
  deriving DecidableEq

/-- Modelled from the spec: `world.snapshot()` — an immutable view copied
out of the World (no aliasing of live state in this functional model). -/
def snapshot (w : World) : Snapshot :=
  { tick := w.tick,
    orgs := w.organisms.map (fun o => ⟨o.id, o.x, o.y, o.age, o.energy⟩),
    resourceTotal := (w.cells.map Cell.resource).sum }

/-- The version number of the persisted snapshot layout (the spec requires a
leading format-version field). -/
def formatVersion : Nat := 1

/-- Modelled from the spec: serialization of an integer quantity as a sign
word and a magnitude word. -/
def encodeInt (q : ℤ) : List Nat :=
  [if q < 0 then 1 else 0, q.natAbs]

/-- Modelled from the spec: deserialization of an integer quantity; returns
the value and the remaining words. -/
def decodeInt : List Nat → Option (ℤ × List Nat)
  | s :: n :: rest =>
    some (if s = 1 then -(n : ℤ) else (n : ℤ), rest)
  | _ => none

/-- Modelled from the spec: serialization of one organism summary. -/
def encodeOrg (o : OrgSummary) : List Nat :=
  o.id :: o.x :: o.y :: o.age :: encodeInt o.energy

/-- Modelled from the spec: deserialization of one organism summary. -/
def decodeOrg : List Nat → Option (OrgSummary × List Nat)
  | i :: x :: y :: a :: rest =>
    (decodeInt rest).map (fun p => (⟨i, x, y, a, p.1⟩, p.2))
  | _ => none

/-- Modelled from the spec: deserialization of a counted list of organism
summaries. -/
def decodeOrgs : Nat → List Nat → Option (List OrgSummary × List Nat)
  | 0, rest => some ([], rest)
  | n + 1, rest =>
    (decodeOrg rest).bind (fun p =>
      (decodeOrgs n p.2).map (fun q => (p.1 :: q.1, q.2)))

/-- Modelled from the spec: `save` — the versioned persisted snapshot layout:
format version, tick, aggregate resource total, then the counted organism
list. -/
def save (s : Snapshot) : List Nat :=
  formatVersion :: s.tick ::
    (encodeInt s.resourceTotal ++ (s.orgs.length :: (s.orgs.map encodeOrg).flatten))

/-- Modelled from the spec: `load` — parses the persisted layout; an unknown
leading version or malformed payload fails with a `FormatError` rather than
best-effort parsing. -/
def load (bytes : List Nat) : Except FormatError Snapshot :=
  match bytes with
  | v :: t :: rest =>
    if v = formatVersion then
      match decodeInt rest with
      | some (total, r1) =>
        match r1 with
        | n :: r2 =>
          match decodeOrgs n r2 with
          | some (os, []) => .ok ⟨t, os, total⟩
          | _ => .error ⟨"malformed organism list"⟩
        | [] => .error ⟨"truncated payload"⟩
      | none => .error ⟨"truncated payload"⟩
    else .error ⟨"unknown format version"⟩
  | _ => .error ⟨"truncated header"⟩

deriving instance DecidableEq for Except

/-! ## Part 3: supporting lemmas -/

deriving instance DecidableEq for Except

/-- Inversion of configuration validation: a reported field's condition
indeed fails, and a passed validation implies every per-field condition. -/
theorem validateConfig_spec (cfg : Config) :
    (∀ f, validateConfig cfg = some f → offends cfg f = true) ∧
    (validateConfig cfg = none →
      0 < cfg.width ∧ 0 < cfg.height ∧ 0 < cfg.max_population ∧
      cfg.initial_population ≤ cfg.max_population ∧
      0 ≤ cfg.mutation_rate ∧ cfg.mutation_rate ≤ fpScale ∧
      0 ≤ cfg.crossover_bias ∧ cfg.crossover_bias ≤ fpScale ∧
      0 ≤ cfg.resource_regen_rate ∧ 0 ≤ cfg.resource_cap ∧
      0 ≤ cfg.metabolism_cost ∧ 0 ≤ cfg.reproduction_threshold ∧
      0 ≤ cfg.reproduction_cost ∧ 0 < cfg.max_age) := by
  unfold validateConfig
  by_cases h1 : cfg.width = 0
  · rw [if_pos h1]
    exact ⟨fun f hf => by injection hf with hf; subst hf; simp [offends, h1],
           fun hn => Option.noConfusion hn⟩
  rw [if_neg h1]
  by_cases h2 : cfg.height = 0
  · rw [if_pos h2]
    exact ⟨fun f hf => by injection hf with hf; subst hf; simp [offends, h2],
           fun hn => Option.noConfusion hn⟩
  rw [if_neg h2]
  by_cases h3 : cfg.max_population = 0
  · rw [if_pos h3]
    exact ⟨fun f hf => by injection hf with hf; subst hf; simp [offends, h3],
           fun hn => Option.noConfusion hn⟩
  rw [if_neg h3]
  by_cases h4 : cfg.max_population < cfg.initial_population
  · rw [if_pos h4]
    exact ⟨fun f hf => by injection hf with hf; subst hf; simp [offends, h4],
           fun hn => Option.noConfusion hn⟩
  rw [if_neg h4]
  by_cases h5 : cfg.mutation_rate < 0 ∨ fpScale < cfg.mutation_rate
  · rw [if_pos h5]
    exact ⟨fun f hf => by injection hf with hf; subst hf; simp [offends, h5],
           fun hn => Option.noConfusion hn⟩
  rw [if_neg h5]
  by_cases h6 : cfg.crossover_bias < 0 ∨ fpScale < cfg.crossover_bias
  · rw [if_pos h6]
    exact ⟨fun f hf => by injection hf with hf; subst hf; simp [offends, h6],
           fun hn => Option.noConfusion hn⟩
  rw [if_neg h6]
  by_cases h7 : cfg.resource_regen_rate < 0
  · rw [if_pos h7]
    exact ⟨fun f hf => by injection hf with hf; subst hf; simp [offends, h7],
           fun hn => Option.noConfusion hn⟩
  rw [if_neg h7]
  by_cases h8 : cfg.resource_cap < 0
  · rw [if_pos h8]
    exact ⟨fun f hf => by injection hf with hf; subst hf; simp [offends, h8],
           fun hn => Option.noConfusion hn⟩
  rw [if_neg h8]
  by_cases h9 : cfg.metabolism_cost < 0
  · rw [if_pos h9]
    exact ⟨fun f hf => by injection hf with hf; subst hf; simp [offends, h9],
           fun hn => Option.noConfusion hn⟩
  rw [if_neg h9]
  by_cases h10 : cfg.reproduction_threshold < 0
  · rw [if_pos h10]
    exact ⟨fun f hf => by injection hf with hf; subst hf; simp [offends, h10],
           fun hn => Option.noConfusion hn⟩
  rw [if_neg h10]
  by_cases h11 : cfg.reproduction_cost < 0
  · rw [if_pos h11]
    exact ⟨fun f hf => by injection hf with hf; subst hf; simp [offends, h11],
           fun hn => Option.noConfusion hn⟩
  rw [if_neg h11]
  by_cases h12 : cfg.max_age = 0
  · rw [if_pos h12]
    exact ⟨fun f hf => by injection hf with hf; subst hf; simp [offends, h12],
           fun hn => Option.noConfusion hn⟩
  rw [if_neg h12]
  push_neg at h5 h6
  exact ⟨fun f hf => Option.noConfusion hf,
    fun _ => ⟨Nat.pos_of_ne_zero h1, Nat.pos_of_ne_zero h2, Nat.pos_of_ne_zero h3,
      le_of_not_lt h4, h5.1, h5.2, h6.1, h6.2, le_of_not_lt h7, le_of_not_lt h8,
      le_of_not_lt h9, le_of_not_lt h10, le_of_not_lt h11, Nat.pos_of_ne_zero h12⟩⟩

/-- Construction succeeds exactly on valid configurations, and then returns
`initWorld` of the unmodified configuration. -/
theorem createWorld_ok_iff (cfg : Config) (w : World) :
    createWorld cfg = .ok w ↔ validateConfig cfg = none ∧ w = initWorld cfg := by
  unfold createWorld
  cases h : validateConfig cfg <;> simp [h, eq_comm]

/-! ## Part 4: the claims about the shipped source -/

/-- C1.  The sole source file's module initializer has no effect on the
module other than binding the `__version__` attribute: whenever
`alienbio_sim` succeeds, the resulting module's attributes are exactly the
original ones (minus any prior `__version__` binding) with
`("__version__", "0.1.0")` appended; no other attribute is touched, and no
algorithm, data structure, or engine operation is run. -/
theorem alienbio_sim_only_effect (env : PyEnv) (m m1 : PyModule)
    (h : alienbio_sim env m = .ok m1) :
    m1.attrs = m.attrs.filter (fun p => p.1 != "__version__") ++
      [("__version__", "0.1.0")] := by
  unfold alienbio_sim pyAdd at h
  cases hok : env.addOk "__version__" "0.1.0" <;> simp [hok] at h
  rw [← h]

/-- Witness for C1: the theorem applied at a concrete environment and a
concrete module. -/
theorem alienbio_sim_only_effect_witness :
    (PyModule.mk [("__version__", "0.1.0")]).attrs =
      (PyModule.mk ([] : List (String × String))).attrs.filter
        (fun p => p.1 != "__version__") ++ [("__version__", "0.1.0")] :=
  alienbio_sim_only_effect ⟨fun _ _ => true⟩ ⟨[]⟩ ⟨[("__version__", "0.1.0")]⟩ rfl

/-- C2.  On a fresh (attribute-less) module, a successful run of
`alienbio_sim` registers exactly one attribute: `__version__` with value
`"0.1.0"`; no function, class, or other attribute is exposed. -/
theorem alienbio_sim_registers_exactly_version (env : PyEnv) (m m1 : PyModule)
    (hm : m.attrs = []) (h : alienbio_sim env m = .ok m1) :
    m1.attrs = [("__version__", "0.1.0")] := by
  unfold alienbio_sim pyAdd at h
  cases hok : env.addOk "__version__" "0.1.0" <;> simp [hok] at h
  rw [← h, hm]
  rfl

/-- Witness for C2: the theorem applied at a concrete environment and the
empty module. -/
theorem alienbio_sim_registers_exactly_version_witness :
    (PyModule.mk [("__version__", "0.1.0")]).attrs = [("__version__", "0.1.0")] :=
  alienbio_sim_registers_exactly_version ⟨fun _ _ => true⟩ ⟨[]⟩
    ⟨[("__version__", "0.1.0")]⟩ rfl rfl

/-- C10.  `alienbio_sim` returns success exactly when the addition of the
`__version__` attribute succeeds, and a failure of that addition is
propagated to the caller unchanged (the `?` operator): the initializer's
result coincides with the result of the `add` call in both directions. -/
theorem alienbio_sim_propagates (env : PyEnv) (m : PyModule) :
    (∀ m1, alienbio_sim env m = .ok m1 ↔
        pyAdd env m "__version__" "0.1.0" = .ok m1) ∧
    (∀ e, alienbio_sim env m = .error e ↔
        pyAdd env m "__version__" "0.1.0" = .error e) := by
  cases hp : pyAdd env m "__version__" "0.1.0" <;> simp [alienbio_sim, hp]

/-! ## Part 5: the claims about the engine defined by the specification -/

/-- The concrete configuration used by the witnesses: a 2 by 2 grid, one
founder, population cap 3, and rates that exercise feeding, reproduction and
mutation. -/
def witCfg : Config :=
  ⟨2, 2, 1, 3, 250000, 500000, 300000, 2000000, 100000, 1000000, 500000, 5, 42⟩

/-- The concrete World the witnesses step. -/
def witWorld : World := initWorld witCfg

/-- C3.  `create_world(config)` is total at the external boundary: for every
configuration value it returns either a constructed World or a
`ConfigError`. -/
theorem createWorld_total (cfg : Config) :
    (∃ w, createWorld cfg = .ok w) ∨ (∃ e, createWorld cfg = .error e) := by
  unfold createWorld
  cases h : validateConfig cfg
  · exact .inl ⟨initWorld cfg, rfl⟩
  · exact .inr ⟨⟨_⟩, rfl⟩

/-- C5.  `step(a)` followed by `step(b)` yields the same World state as a
single `step(a+b)` from the same start state, for all positive tick
counts. -/
theorem step_additive (w : World) (a b : Nat) (ha : 0 < a) (hb : 0 < b) :
    stepWorld b (stepWorld a w) = stepWorld (a + b) w := by
  unfold stepWorld
  rw [Nat.add_comm]
  exact (Function.iterate_add_apply tickOnce b a w).symm

/-- Witness for C5: the theorem applied at the concrete World with `a = 1`,
`b = 2`. -/
theorem step_additive_witness :
    stepWorld 2 (stepWorld 1 witWorld) = stepWorld (1 + 2) witWorld :=
  step_additive witWorld 1 2 (by decide) (by decide)

/-- C4.  Determinism as a two-run equality: for every configuration and
tick count, two independent Worlds constructed from the same configuration
(same fixed seed) produce byte-identical saved snapshots after `step(N)`.
In this model the random stream is a pure function of the seed, organism
identifier and tick, so the property holds by construction. -/
theorem determinism_two_runs (cfg : Config) (n : Nat) (w1 w2 : World)
    (h1 : createWorld cfg = .ok w1) (h2 : createWorld cfg = .ok w2) :
    save (snapshot (stepWorld n w1)) = save (snapshot (stepWorld n w2)) := by
  injection h1.symm.trans h2 with h
  rw [h]

/-- Witness for C4: the theorem applied at the concrete configuration with
`N = 2`, both construction hypotheses discharged by evaluation. -/
theorem determinism_two_runs_witness :
    save (snapshot (stepWorld 2 witWorld)) = save (snapshot (stepWorld 2 witWorld)) :=
  determinism_two_runs witCfg 2 witWorld witWorld rfl rfl

/-- C8.  A configuration whose `mutation_rate` or `crossover_bias` lies
outside `[0,1]` (here `[0, fpScale]`) is rejected at World construction with
a `ConfigError` identifying an offending field; no World — not even a
partial one — is created, and the invalid value is never silently
clamped. -/
theorem invalid_rate_rejected (cfg : Config)
    (h : (cfg.mutation_rate < 0 ∨ fpScale < cfg.mutation_rate) ∨
         (cfg.crossover_bias < 0 ∨ fpScale < cfg.crossover_bias)) :
    (∃ e, createWorld cfg = .error e ∧ offends cfg e.field = true) ∧
    ∀ w, createWorld cfg ≠ .ok w := by
  cases hv : validateConfig cfg with
  | none =>
    obtain ⟨-, -, -, -, hm1, hm2, hc1, hc2, -⟩ := (validateConfig_spec cfg).2 hv
    rcases h with (h | h) | (h | h) <;> omega
  | some f =>
    have hoff := (validateConfig_spec cfg).1 f hv
    refine ⟨⟨⟨f⟩, ?_, hoff⟩, fun w hw => ?_⟩
    · unfold createWorld
      rw [hv]
    · rw [createWorld, hv] at hw
      cases hw

/-- Witness for C8: the theorem applied at a concrete configuration with a
negative mutation rate. -/
theorem invalid_rate_rejected_witness :
    (∃ e, createWorld ⟨2, 2, 1, 3, -1, 500000, 300000, 2000000, 100000, 1000000, 500000, 5, 42⟩ = .error e ∧
      offends ⟨2, 2, 1, 3, -1, 500000, 300000, 2000000, 100000, 1000000, 500000, 5, 42⟩ e.field = true) ∧
    ∀ w, createWorld ⟨2, 2, 1, 3, -1, 500000, 300000, 2000000, 100000, 1000000, 500000, 5, 42⟩ ≠ .ok w :=
  invalid_rate_rejected _ (by decide)

/-- Modelled from the spec: a genome's declared bounds — every gene value in
`[0,1]` (as `[0, fpScale]`). -/
def GenomeOk (g : List Gene) : Prop := ∀ x ∈ g, 0 ≤ x.value ∧ x.value ≤ fpScale

instance decidableGenomeOk (g : List Gene) : Decidable (GenomeOk g) :=
  inferInstanceAs (Decidable (∀ x ∈ g, 0 ≤ x.value ∧ x.value ≤ fpScale))

/-- Clamping lands in the declared gene range. -/
theorem clampGene_bounds (v : ℤ) : 0 ≤ clampGene v ∧ clampGene v ≤ fpScale :=
  ⟨le_min (le_max_right v 0) (by decide), min_le_right _ _⟩

/-- Mutation of a single gene never changes its trait identifier. -/
theorem mutateGene_traitId (cfg : Config) (k i : Nat) (g : Gene) :
    (mutateGene cfg k i g).traitId = g.traitId := by
  unfold mutateGene
  split_ifs <;> rfl

/-- Mutation of a single in-range gene stays in range. -/
theorem mutateGene_bounds (cfg : Config) (k i : Nat) (g : Gene)
    (h : 0 ≤ g.value ∧ g.value ≤ fpScale) :
    0 ≤ (mutateGene cfg k i g).value ∧ (mutateGene cfg k i g).value ≤ fpScale := by
  unfold mutateGene
  split_ifs
  · exact clampGene_bounds _
  · exact h

/-- Mutation preserves gene count. -/
theorem mutateFrom_length (cfg : Config) (k : Nat) (g : List Gene) :
    ∀ i, (mutateFrom cfg k i g).length = g.length := by
  induction g with
  | nil => intro i; rfl
  | cons x xs ih => intro i; simpa [mutateFrom] using ih (i + 1)

/-- Mutation preserves trait identifiers. -/
theorem mutateFrom_traitIds (cfg : Config) (k : Nat) (g : List Gene) :
    ∀ i, (mutateFrom cfg k i g).map Gene.traitId = g.map Gene.traitId := by
  induction g with
  | nil => intro i; rfl
  | cons x xs ih =>
    intro i
    simpa [mutateFrom, mutateGene_traitId] using ih (i + 1)

/-- Mutation keeps an in-range genome in range. -/
theorem mutateFrom_ok (cfg : Config) (k : Nat) (g : List Gene) :
    ∀ i, GenomeOk g → GenomeOk (mutateFrom cfg k i g) := by
  induction g with
  | nil => intro i _ x hx; cases hx
  | cons a as ih =>
    intro i hg x hx
    rcases List.mem_cons.1 hx with rfl | hx
    · exact mutateGene_bounds cfg k i a (hg a (List.mem_cons_self a as))
    · exact ih (i + 1) (fun y hy => hg y (List.mem_cons_of_mem a hy)) x hx

/-- Crossover of equal-length parents preserves gene count. -/
theorem crossoverFrom_length (cfg : Config) (k : Nat) (gA : List Gene) :
    ∀ (i : Nat) (gB : List Gene), gA.length = gB.length →
      (crossoverFrom cfg k i gA gB).length = gA.length := by
  induction gA with
  | nil => intro i gB _; rfl
  | cons a as ih =>
    intro i gB h
    cases gB with
    | nil => simp at h
    | cons b bs => simpa [crossoverFrom] using ih (i + 1) bs (by simpa using h)

/-- Crossover of equal-length parents takes the trait identifiers of the
species template (parent A's). -/
theorem crossoverFrom_traitIds (cfg : Config) (k : Nat) (gA : List Gene) :
    ∀ (i : Nat) (gB : List Gene), gA.length = gB.length →
      (crossoverFrom cfg k i gA gB).map Gene.traitId = gA.map Gene.traitId := by
  induction gA with
  | nil => intro i gB _; rfl
  | cons a as ih =>
    intro i gB h
    cases gB with
    | nil => simp at h
    | cons b bs => simpa [crossoverFrom] using ih (i + 1) bs (by simpa using h)

/-- Crossover of in-range parents is in range (every output value comes
from one parent). -/
theorem crossoverFrom_ok (cfg : Config) (k : Nat) (gA : List Gene) :
    ∀ (i : Nat) (gB : List Gene), GenomeOk gA → GenomeOk gB →
      GenomeOk (crossoverFrom cfg k i gA gB) := by
  induction gA with
  | nil => intro i gB _ _ x hx; cases hx
  | cons a as ih =>
    intro i gB hA hB x hx
    cases gB with
    | nil => cases hx
    | cons b bs =>
      rcases List.mem_cons.1 hx with rfl | hx
      · by_cases hc : chooseA cfg k i
        · simpa [hc] using hA a (List.mem_cons_self a as)
        · simpa [hc] using hB b (List.mem_cons_self b bs)
      · exact ih (i + 1) bs (fun y hy => hA y (List.mem_cons_of_mem a hy))
          (fun y hy => hB y (List.mem_cons_of_mem b hy)) x hx

/-- C7.  For every application of `crossover` followed by `mutate` on two
parents of the same species template (equal gene counts and trait
identifiers, all values in the declared range), the output genome's gene
count and trait identifiers equal the parents', and every output gene value
lies within the declared bounds. -/
theorem genome_invariants (cfg : Config) (k1 k2 : Nat) (gA gB : List Gene)
    (hlen : gA.length = gB.length)
    (hid : gA.map Gene.traitId = gB.map Gene.traitId)
    (hA : GenomeOk gA) (hB : GenomeOk gB) :
    (mutateFrom cfg k2 0 (crossoverFrom cfg k1 0 gA gB)).length = gA.length ∧
    (mutateFrom cfg k2 0 (crossoverFrom cfg k1 0 gA gB)).map Gene.traitId =
      gA.map Gene.traitId ∧
    (mutateFrom cfg k2 0 (crossoverFrom cfg k1 0 gA gB)).map Gene.traitId =
      gB.map Gene.traitId ∧
    GenomeOk (mutateFrom cfg k2 0 (crossoverFrom cfg k1 0 gA gB)) := by
  have hids := (mutateFrom_traitIds cfg k2 (crossoverFrom cfg k1 0 gA gB) 0).trans
    (crossoverFrom_traitIds cfg k1 gA 0 gB hlen)
  exact ⟨(mutateFrom_length cfg k2 _ 0).trans (crossoverFrom_length cfg k1 gA 0 gB hlen),
    hids, hids.trans hid,
    mutateFrom_ok cfg k2 _ 0 (crossoverFrom_ok cfg k1 gA 0 gB hA hB)⟩

/-- Witness for C7: the theorem applied to two concrete parent genomes of the
shared template. -/
theorem genome_invariants_witness :
    (mutateFrom witCfg 9 0 (crossoverFrom witCfg 5 0 initialGenome
        [⟨0, 0⟩, ⟨1, 1000000⟩, ⟨2, 300000⟩])).length = initialGenome.length ∧
    (mutateFrom witCfg 9 0 (crossoverFrom witCfg 5 0 initialGenome
        [⟨0, 0⟩, ⟨1, 1000000⟩, ⟨2, 300000⟩])).map Gene.traitId =
      initialGenome.map Gene.traitId ∧
    (mutateFrom witCfg 9 0 (crossoverFrom witCfg 5 0 initialGenome
        [⟨0, 0⟩, ⟨1, 1000000⟩, ⟨2, 300000⟩])).map Gene.traitId =
      ([⟨0, 0⟩, ⟨1, 1000000⟩, ⟨2, 300000⟩] : List Gene).map Gene.traitId ∧
    GenomeOk (mutateFrom witCfg 9 0 (crossoverFrom witCfg 5 0 initialGenome
        [⟨0, 0⟩, ⟨1, 1000000⟩, ⟨2, 300000⟩])) :=
  genome_invariants witCfg 5 9 initialGenome [⟨0, 0⟩, ⟨1, 1000000⟩, ⟨2, 300000⟩]
    (by decide) (by decide) (by decide) (by decide)

/-- Integer serialization round-trips. -/
theorem decodeInt_encodeInt (q : ℤ) (r : List Nat) :
    decodeInt (encodeInt q ++ r) = some (q, r) := by
  by_cases hq : q < 0
  · have h1 : ((q.natAbs : ℤ)) = -q := Int.ofNat_natAbs_of_nonpos (le_of_lt hq)
    simp [encodeInt, decodeInt, hq, h1]
  · have h1 : ((q.natAbs : ℤ)) = q := Int.natAbs_of_nonneg (le_of_not_lt hq)
    simp [encodeInt, decodeInt, hq, h1]

/-- Organism-summary serialization round-trips. -/
theorem decodeOrg_encodeOrg (o : OrgSummary) (r : List Nat) :
    decodeOrg (encodeOrg o ++ r) = some (o, r) := by
  simp [encodeOrg, decodeOrg, decodeInt_encodeInt]

/-- Counted organism-list serialization round-trips. -/
theorem decodeOrgs_append (l : List OrgSummary) (r : List Nat) :
    decodeOrgs l.length ((l.map encodeOrg).flatten ++ r) = some (l, r) := by
  induction l with
  | nil => rfl
  | cons o os ih => simp [decodeOrgs, decodeOrg_encodeOrg, ih]

/-- The persisted snapshot layout round-trips: `load (save s) = ok s`. -/
theorem load_save (s : Snapshot) : load (save s) = .ok s := by
  have h := decodeOrgs_append s.orgs []
  rw [List.append_nil] at h
  simp [save, load, decodeInt_encodeInt, h]

/-- C9.  For every reachable World state (constructed by `create_world` and
advanced by any number of ticks), saving its snapshot and loading the result
yields the original snapshot: `load (save (snapshot w)) = ok (snapshot w)`. -/
theorem snapshot_roundtrip (cfg : Config) (w : World) (n : Nat)
    (h : createWorld cfg = .ok w) :
    load (save (snapshot (stepWorld n w))) = .ok (snapshot (stepWorld n w)) :=
  load_save (snapshot (stepWorld n w))

/-- Witness for C9: the theorem applied at the concrete configuration after
one tick. -/
theorem snapshot_roundtrip_witness :
    load (save (snapshot (stepWorld 1 witWorld))) = .ok (snapshot (stepWorld 1 witWorld)) :=
  snapshot_roundtrip witCfg witWorld 1 rfl

/-- Modelled from the spec: the declared cell range — resource non-negative
and at most the configured cap. -/
def CellsOk (cfg : Config) (cs : List Cell) : Prop :=
  ∀ c ∈ cs, 0 ≤ c.resource ∧ c.resource ≤ cfg.resource_cap

instance decidableCellsOk (cfg : Config) (cs : List Cell) : Decidable (CellsOk cfg cs) :=
  inferInstanceAs (Decidable (∀ c ∈ cs, 0 ≤ c.resource ∧ c.resource ≤ cfg.resource_cap))

/-- Modelled from the spec: the declared per-organism ranges — non-negative
energy, age within the configured maximum, genome in bounds. -/
def OrgOk (cfg : Config) (o : Organism) : Prop :=
  0 ≤ o.energy ∧ GenomeOk o.genome ∧ o.age ≤ cfg.max_age

instance decidableOrgOk (cfg : Config) (o : Organism) : Decidable (OrgOk cfg o) :=
  inferInstanceAs (Decidable (0 ≤ o.energy ∧ GenomeOk o.genome ∧ o.age ≤ cfg.max_age))

/-- The World invariant of the spec: valid configuration, organism count
bounded by the cap, cells in range, organisms in range. -/
def WorldOk (w : World) : Prop :=
  validateConfig w.config = none ∧
  w.organisms.length ≤ w.config.max_population ∧
  CellsOk w.config w.cells ∧
  ∀ o ∈ w.organisms, OrgOk w.config o

instance decidableWorldOk (w : World) : Decidable (WorldOk w) :=
  inferInstanceAs (Decidable (validateConfig w.config = none ∧
    w.organisms.length ≤ w.config.max_population ∧
    CellsOk w.config w.cells ∧
    ∀ o ∈ w.organisms, OrgOk w.config o))

/-- The in-tick invariant threaded through the per-organism fold. -/
def StOk (cfg : Config) (st : TickState) : Prop :=
  (∀ o ∈ st.orgs, o.alive = true → OrgOk cfg o) ∧
  (∀ o ∈ st.newborns, OrgOk cfg o) ∧
  CellsOk cfg st.cells ∧
  st.base + st.newborns.length ≤ cfg.max_population

/-- Regeneration keeps cells within range, given a valid configuration. -/
theorem cellsOk_regen (cfg : Config) (cs : List Cell)
    (hrate : 0 ≤ cfg.resource_regen_rate) (hcap : 0 ≤ cfg.resource_cap)
    (h : ∀ c ∈ cs, 0 ≤ c.resource) :
    CellsOk cfg (cs.map (regenCell cfg)) := by
  intro c hc
  obtain ⟨c0, hc0, rfl⟩ := List.mem_map.1 hc
  unfold regenCell
  exact ⟨le_min (add_nonneg (h c0 hc0) hrate) hcap, min_le_right _ _⟩

/-- Feeding keeps cells within range: a fed-upon cell loses at most its own
resource, and the consumed amount is non-negative. -/
theorem cellsOk_eat (cfg : Config) (cs : List Cell) (x y : Nat) (amt : ℤ)
    (hamt : 0 ≤ amt) (h : CellsOk cfg cs) :
    CellsOk cfg (cs.map (eatCell x y amt)) := by
  intro c hc
  obtain ⟨c0, hc0, rfl⟩ := List.mem_map.1 hc
  unfold eatCell
  split_ifs with hcond
  · exact ⟨sub_nonneg.2 hcond.2.2, le_trans (sub_le_self _ hamt) (h c0 hc0).2⟩
  · exact h c0 hc0

/-- The consumption trait value of an in-range genome is non-negative. -/
theorem consumptionOf_nonneg (o : Organism) (hg : GenomeOk o.genome) :
    0 ≤ consumptionOf o := by
  unfold consumptionOf
  cases hgen : o.genome with
  | nil => simp
  | cons g gs =>
    simpa using (hg g (by rw [hgen]; exact List.mem_cons_self g gs)).1

/-- The age-limit phase yields an in-range organism whenever it leaves it
alive. -/
theorem ageCheck_ok (cfg : Config) (o : Organism)
    (he : 0 ≤ o.energy) (hg : GenomeOk o.genome) :
    (ageCheck cfg o).alive = true → OrgOk cfg (ageCheck cfg o) := by
  unfold ageCheck
  split_ifs with h
  · intro hc
    simp at hc
  · intro _
    exact ⟨he, hg, le_of_not_lt h⟩

/-- A newborn is in range, given a valid configuration and an in-range
parent genome. -/
theorem makeChild_ok (cfg : Config) (tk childId : Nat) (parent : Organism)
    (hcost : 0 ≤ cfg.reproduction_cost) (hg : GenomeOk parent.genome) :
    OrgOk cfg (makeChild cfg tk childId parent) := by
  refine ⟨hcost, ?_, Nat.zero_le _⟩
  exact mutateFrom_ok cfg _ _ 0 (crossoverFrom_ok cfg _ parent.genome 0 parent.genome hg hg)

theorem StOk_step_norepro (cfg : Config) (st : TickState) (o1 : Organism)
    (cs : List Cell) (nid : Nat)
    (hst : StOk cfg st) (ho1 : o1.alive = true → OrgOk cfg o1)
    (hcs : CellsOk cfg cs) :
    StOk cfg ⟨st.base, st.orgs ++ [o1], st.newborns, cs, nid⟩ := by
  obtain ⟨horgs, hnew, -, hcount⟩ := hst
  refine ⟨?_, hnew, hcs, hcount⟩
  intro x hx
  rcases List.mem_append.1 hx with hx | hx
  · exact horgs x hx
  · rcases List.mem_singleton.1 hx with rfl
    exact ho1

theorem StOk_step_repro (cfg : Config) (st : TickState) (o1 child : Organism)
    (cs : List Cell) (nid : Nat)
    (hst : StOk cfg st) (ho1 : o1.alive = true → OrgOk cfg o1)
    (hchild : OrgOk cfg child) (hcs : CellsOk cfg cs)
    (hlt : st.base + st.newborns.length < cfg.max_population) :
    StOk cfg ⟨st.base, st.orgs ++ [o1], st.newborns ++ [child], cs, nid⟩ := by
  obtain ⟨horgs, hnew, -, -⟩ := hst
  refine ⟨?_, ?_, hcs, ?_⟩
  · intro x hx
    rcases List.mem_append.1 hx with hx | hx
    · exact horgs x hx
    · rcases List.mem_singleton.1 hx with rfl
      exact ho1
  · intro x hx
    rcases List.mem_append.1 hx with hx | hx
    · exact hnew x hx
    · rcases List.mem_singleton.1 hx with rfl
      exact hchild
  · simp only [List.length_append, List.length_singleton]
    omega

theorem processOrganism_StOk (cfg : Config) (hv : validateConfig cfg = none)
    (tk : Nat) (st : TickState) (o : Organism)
    (hst : StOk cfg st) (hg : GenomeOk o.genome) :
    StOk cfg (processOrganism cfg tk st o) ∧
    (processOrganism cfg tk st o).base = st.base ∧
    (processOrganism cfg tk st o).orgs.length = st.orgs.length + 1 := by
  have hcells := hst.2.2.1
  obtain ⟨-, -, -, -, -, -, -, -, -, -, -, -, hcost, -⟩ := (validateConfig_spec cfg).2 hv
  unfold processOrganism
  simp only []
  split_ifs with h1 h2 h3 h4
  · -- starvation: the organism is marked dead and appended; nothing else moves
    refine ⟨?_, rfl, by simp⟩
    exact StOk_step_norepro cfg st
      { id := o.id, genome := o.genome, energy := o.energy - cfg.metabolism_cost,
        age := o.age + 1, x := o.x, y := o.y, alive := false }
      st.cells st.nextId hst (fun habs => by simp at habs) hcells
  · -- fed and reproducing
    refine ⟨?_, rfl, by simp⟩
    refine StOk_step_repro cfg st _ _ _ _ hst ?_ ?_ ?_ h3.2
    · exact ageCheck_ok cfg _ (le_max_right _ 0) hg
    · exact makeChild_ok cfg tk st.nextId _ hcost hg
    · exact cellsOk_eat cfg st.cells _ _ _ (consumptionOf_nonneg _ hg) hcells
  · -- fed, not reproducing
    refine ⟨?_, rfl, by simp⟩
    refine StOk_step_norepro cfg st _ _ _ hst ?_ ?_
    · refine ageCheck_ok cfg _ ?_ hg
      have hpos : 0 < o.energy - cfg.metabolism_cost := lt_of_not_ge (fun hc => h1 hc)
      have hcons := consumptionOf_nonneg
        { id := o.id, genome := o.genome, energy := o.energy - cfg.metabolism_cost,
          age := o.age + 1,
          x := (chooseMove st.cells (neighborPositions cfg o.x o.y) (o.x, o.y)).1,
          y := (chooseMove st.cells (neighborPositions cfg o.x o.y) (o.x, o.y)).2,
          alive := o.alive } hg
      exact add_nonneg (le_of_lt hpos) hcons
    · exact cellsOk_eat cfg st.cells _ _ _ (consumptionOf_nonneg _ hg) hcells
  · -- unfed, reproducing
    refine ⟨?_, rfl, by simp⟩
    refine StOk_step_repro cfg st _ _ _ _ hst ?_ ?_ hcells h4.2
    · exact ageCheck_ok cfg _ (le_max_right _ 0) hg
    · exact makeChild_ok cfg tk st.nextId _ hcost hg
  · -- unfed, not reproducing
    refine ⟨?_, rfl, by simp⟩
    refine StOk_step_norepro cfg st _ _ _ hst ?_ hcells
    refine ageCheck_ok cfg _ ?_ hg
    exact le_of_lt (lt_of_not_ge (fun hc => h1 hc))

theorem foldl_StOk (cfg : Config) (hv : validateConfig cfg = none) (tk : Nat)
    (l : List Organism) :
    ∀ st : TickState, StOk cfg st → (∀ o ∈ l, GenomeOk o.genome) →
      StOk cfg (l.foldl (processOrganism cfg tk) st) ∧
      (l.foldl (processOrganism cfg tk) st).base = st.base ∧
      (l.foldl (processOrganism cfg tk) st).orgs.length = st.orgs.length + l.length := by
  induction l with
  | nil => exact fun st h _ => ⟨h, rfl, rfl⟩
  | cons o os ih =>
    intro st h hgl
    have hstep := processOrganism_StOk cfg hv tk st o h (hgl o (List.mem_cons_self o os))
    have hrest := ih (processOrganism cfg tk st o) hstep.1
      (fun o1 ho1 => hgl o1 (List.mem_cons_of_mem o ho1))
    refine ⟨hrest.1, hrest.2.1.trans hstep.2.1, ?_⟩
    rw [List.foldl_cons] at *
    rw [hrest.2.2, hstep.2.2]
    simp [Nat.add_assoc, Nat.add_comm 1 os.length]

theorem tickOnce_config (w : World) : (tickOnce w).config = w.config := rfl

theorem stepWorld_config (n : Nat) (w : World) : (stepWorld n w).config = w.config := by
  induction n with
  | zero => rfl
  | succ k ih =>
    rw [stepWorld, Function.iterate_succ_apply']
    exact (tickOnce_config _).trans ih

/-- One tick preserves the World invariant. -/
theorem tickOnce_WorldOk (w : World) (h : WorldOk w) : WorldOk (tickOnce w) := by
  obtain ⟨hv, hlen, hcells, horgs⟩ := h
  obtain ⟨-, -, -, -, -, -, -, -, hrate, hcap, -⟩ := (validateConfig_spec w.config).2 hv
  have hcells1 : CellsOk w.config (w.cells.map (regenCell w.config)) :=
    cellsOk_regen w.config w.cells hrate hcap (fun c hc => (hcells c hc).1)
  have hst0 : StOk w.config
      ⟨w.organisms.length, [], [], w.cells.map (regenCell w.config), w.nextId⟩ := by
    refine ⟨?_, ?_, hcells1, ?_⟩
    · intro x hx; cases hx
    · intro x hx; cases hx
    · simpa using hlen
  have hfold := foldl_StOk w.config hv w.tick w.organisms _ hst0
    (fun o ho => (horgs o ho).2.1)
  obtain ⟨⟨hforgs, hfnew, hfcells, hfcount⟩, hfbase, hflen⟩ := hfold
  unfold tickOnce
  simp only []
  refine ⟨hv, ?_, hfcells, ?_⟩
  · simp only [List.length_append]
    have hfilter := List.length_filter_le (fun o : Organism => o.alive)
      (w.organisms.foldl (processOrganism w.config w.tick)
        ⟨w.organisms.length, [], [], w.cells.map (regenCell w.config), w.nextId⟩).orgs
    have he1 : (⟨w.organisms.length, ([] : List Organism), ([] : List Organism),
        w.cells.map (regenCell w.config), w.nextId⟩ : TickState).base =
        w.organisms.length := rfl
    have he2 : (⟨w.organisms.length, ([] : List Organism), ([] : List Organism),
        w.cells.map (regenCell w.config), w.nextId⟩ : TickState).orgs.length = 0 := rfl
    omega
  · intro o ho
    rcases List.mem_append.1 ho with ho | ho
    · have hmf := List.mem_filter.1 ho
      exact hforgs o hmf.1 hmf.2
    · exact hfnew o ho

/-- The constructed World satisfies the invariant. -/
theorem initWorld_WorldOk (cfg : Config) (hv : validateConfig cfg = none) :
    WorldOk (initWorld cfg) := by
  obtain ⟨-, -, -, hpop, -, -, -, -, -, hcap, -, hthr, -, -⟩ :=
    (validateConfig_spec cfg).2 hv
  refine ⟨hv, ?_, ?_, ?_⟩
  · simpa [initWorld] using hpop
  · intro c hc
    simp only [initWorld, initCells, List.mem_map, List.mem_range] at hc
    obtain ⟨i, -, rfl⟩ := hc
    exact ⟨hcap, le_refl _⟩
  · intro o ho
    simp only [initWorld, List.mem_map, List.mem_range] at ho
    obtain ⟨i, -, rfl⟩ := ho
    refine ⟨hthr, ?_, Nat.zero_le _⟩
    show GenomeOk initialGenome
    decide

/-- Every number of ticks preserves the World invariant. -/
theorem stepWorld_WorldOk (n : Nat) (w : World) (h : WorldOk w) :
    WorldOk (stepWorld n w) := by
  induction n with
  | zero => exact h
  | succ k ih =>
    rw [stepWorld, Function.iterate_succ_apply']
    exact tickOnce_WorldOk _ ih

/-- C6.  Every reachable World state (constructed by `create_world`, advanced
by any number of `step` calls) keeps the total organism count at most the
configured `max_population`, every cell's resource within `[0, resource_cap]`,
and every organism's energy non-negative, age at most `max_age`, and gene
values within their declared bounds. -/
theorem reachable_bounds (cfg : Config) (w : World) (n : Nat)
    (h : createWorld cfg = .ok w) :
    (stepWorld n w).organisms.length ≤ cfg.max_population ∧
    (∀ c ∈ (stepWorld n w).cells, 0 ≤ c.resource ∧ c.resource ≤ cfg.resource_cap) ∧
    ∀ o ∈ (stepWorld n w).organisms,
      0 ≤ o.energy ∧ o.age ≤ cfg.max_age ∧ GenomeOk o.genome := by
  obtain ⟨hv, rfl⟩ := (createWorld_ok_iff cfg w).1 h
  have hok := stepWorld_WorldOk n _ (initWorld_WorldOk cfg hv)
  obtain ⟨-, h1, h2, h3⟩ := hok
  have hcfg : (stepWorld n (initWorld cfg)).config = cfg := stepWorld_config n _
  rw [hcfg] at h1 h2 h3
  exact ⟨h1, h2, fun o ho => ⟨(h3 o ho).1, (h3 o ho).2.2, (h3 o ho).2.1⟩⟩

/-- Witness for C6: the theorem applied at the concrete configuration after
two ticks. -/
theorem reachable_bounds_witness :
    (stepWorld 2 witWorld).organisms.length ≤ witCfg.max_population ∧
    (∀ c ∈ (stepWorld 2 witWorld).cells, 0 ≤ c.resource ∧ c.resource ≤ witCfg.resource_cap) ∧
    ∀ o ∈ (stepWorld 2 witWorld).organisms,
      0 ≤ o.energy ∧ o.age ≤ witCfg.max_age ∧ GenomeOk o.genome :=
  reachable_bounds witCfg witWorld 2 rfl
